import Mathlib

/-!
Verification of the vdmpoke repository: a shallow embedding of the HPMFraud
library (include/HPMFraud.h, lib/HPMFraud.c) and of the CLI driver
(src/main.c), with theorems settling the specification's claims about mode
decoding, VDM framing, the unlock handshake, and the session sequencing in
main.

Hardware and IOKit are external to the repository.  They are modelled by an
Oracle that supplies the return code (and, for reads, the reply bytes) of
the k-th transport-primitive call of the process.  Every primitive call
appends an Event to a trace carried in the state, so temporal claims become
statements about traces.
-/

/-- kIOReturnSuccess, as defined by IOKit (external to the repository). -/
def kIOReturnSuccess : Int := 0

/-- kIOReturnError, as defined by IOKit (external to the repository). -/
def kIOReturnError : Int := 0xe00002bc

/-- kIOReturnBadArgument, as defined by IOKit (external to the repository). -/
def kIOReturnBadArgument : Int := 0xe00002c2

/-- kIOReturnUnderrun, as defined by IOKit (external to the repository). -/
def kIOReturnUnderrun : Int := 0xe00002e7

/-- kIOReturnNotFound, as defined by IOKit (external to the repository). -/
def kIOReturnNotFound : Int := 0xe00002f0

/-- One observable interaction with the transport (the HPMInterface
primitives Read / Write / Command / SendVDM) plus the handle release.
Reads record the return code and the bytes delivered to the caller; writes
record the bytes written; SendVDM records the device/argument selector and
the frame bytes actually handed over. -/
inductive Event
  | read (chip : Nat) (address : Nat) (ret : Int) (reply : List Nat)
  | write (chip : Nat) (address : Nat) (data : List Nat) (ret : Int)
  | command (chip : Nat) (code : Nat) (ret : Int)
  | sendVDM (chip : Nat) (arg : Nat) (body : List Nat) (ret : Int)
  | close
deriving DecidableEq, Repr

/-- The environment's answers to transport-primitive calls: `ret k` is the
IOReturn of the k-th call, and `reply k` is the reply the hardware delivers
when the k-th call is a read. -/
structure Oracle where
  ret : Nat → Int
  reply : Nat → List Nat

/-- Process state threaded through the embedded code: the oracle, the
number of primitive calls made so far, the cached ACE unlock key (the
4 bytes HPMGetACEUnlockKey derives from the platform model identifier;
`[]` models the NULL returned when the lookup fails), and the event
trace. -/
structure St where
  oracle : Oracle
  k : Nat
  key : List Nat
  trace : List Event

/-- HPMInterface Write primitive (external; answered by the oracle). -/
def ifaceWrite (s : St) (chip address : Nat) (data : List Nat) : Int × St :=
  let r := s.oracle.ret s.k
  (r, ⟨s.oracle, s.k + 1, s.key, s.trace ++ [Event.write chip address data r]⟩)

/-- HPMInterface Command primitive (external; answered by the oracle). -/
def ifaceCommand (s : St) (chip code : Nat) : Int × St :=
  let r := s.oracle.ret s.k
  (r, ⟨s.oracle, s.k + 1, s.key, s.trace ++ [Event.command chip code r]⟩)

/-- HPMRead: wraps the interface Read primitive.  Mirrors HPMFraud.c: on a
failed read the caller's length variable keeps its initial 0 and the buffer
is not consulted, which we model by delivering `[]` unless the read
succeeded. -/
def HPMRead (s : St) (chip address : Nat) : (Int × List Nat) × St :=
  let r := s.oracle.ret s.k
  let rep := if r = 0 then s.oracle.reply s.k else []
  ((r, rep), ⟨s.oracle, s.k + 1, s.key, s.trace ++ [Event.read chip address r rep]⟩)

/-- HPMSendVDM: sends `bodyLength` bytes of `body` as one raw frame with the
device/argument selector fixed at 3 (HPMFraud.c). -/
def HPMSendVDM (s : St) (chip : Nat) (body : List Nat) (bodyLength : Nat) : Int × St :=
  let frame := body.take bodyLength
  let r := s.oracle.ret s.k
  (r, ⟨s.oracle, s.k + 1, s.key, s.trace ++ [Event.sendVDM chip 3 frame r]⟩)

/-- HPMClientClose: releases the transport handle. -/
def HPMClientClose (s : St) : St :=
  ⟨s.oracle, s.k, s.key, s.trace ++ [Event.close]⟩

/-- HPMGetConnectionType (HPMFraud.c): read address 0x3f; `-1`
(kHPMConnectionTypeError) if the read failed or the reply is empty,
otherwise the low 2 bits (kHPMConnectionTypeMask) of the first reply
byte. -/
def HPMGetConnectionType (s : St) : Int × St :=
  let ((r, rep), s1) := HPMRead s 0 0x3f
  if r ≠ 0 ∨ rep = [] then (-1, s1)
  else (((rep.headD 0) &&& 3 : Nat), s1)

/-- HPM operating mode (HPMMode without the kHPMModeError case, which the C
code reports through the IOReturn and an unwritten out-parameter). -/
inductive HPMMode
  | app
  | dbma
  | unknown
deriving DecidableEq, Repr

/-- The 3 bytes of the literal "APP" compared by HPMGetMode. -/
def appTag : List Nat := [0x41, 0x50, 0x50]

/-- The 4 bytes of the literal "DBMa" compared by HPMGetMode. -/
def dbmaTag : List Nat := [0x44, 0x42, 0x4d, 0x61]

/-- HPMGetMode (HPMFraud.c): read address 3; propagate a read failure;
replies shorter than 4 bytes are kIOReturnUnderrun; otherwise decode the
leading bytes against "APP" (3 bytes) then "DBMa" (4 bytes), anything else
being unknown.  The `Option` is the out-parameter: `none` when the C code
returns without storing to `*modeOut`. -/
def HPMGetMode (s : St) : (Int × Option HPMMode) × St :=
  let ((r, rep), s1) := HPMRead s 0 0x3
  if r ≠ 0 then ((r, none), s1)
  else if rep.length < 4 then ((kIOReturnUnderrun, none), s1)
  else if rep.take 3 = appTag then ((0, some HPMMode.app), s1)
  else if rep.take 4 = dbmaTag then ((0, some HPMMode.dbma), s1)
  else ((0, some HPMMode.unknown), s1)

/-- kHPMCommandDBMA = 'DBMa' as a 32-bit character constant. -/
def kHPMCommandDBMA : Nat := 0x44424d61

/-- kHPMCommandGAID = 'Gaid' as a 32-bit character constant. -/
def kHPMCommandGAID : Nat := 0x47616964

/-- kHPMCommandLock = 'LOCK' as a 32-bit character constant. -/
def kHPMCommandLock : Nat := 0x4c4f434b

/-- HPMDoCommand (HPMFraud.c): if an argument buffer is present and
non-empty, write it to address 9 (propagating a write failure); issue the
command code (propagating a failure); read back a reply at address 9.  If
the read-back fails or the reply is empty, return the read-back's IOReturn
unchanged; otherwise succeed and store the low nibble of the first reply
byte.  The `Option Nat` result is the `out` parameter: `none` when the C
code never stores through it. -/
def HPMDoCommand (s : St) (chip code : Nat) (args : List Nat) : (Int × Option Nat) × St :=
  let (wfail, s1) :=
    if args ≠ [] then
      let (wr, s') := ifaceWrite s chip 9 args
      (if wr ≠ 0 then some wr else none, s')
    else (none, s)
  match wfail with
  | some e => ((e, none), s1)
  | none =>
    let (cr, s2) := ifaceCommand s1 chip code
    if cr ≠ 0 then ((cr, none), s2)
    else
      let ((rr, rep), s3) := HPMRead s2 chip 9
      if rr ≠ 0 ∨ rep = [] then ((rr, none), s3)
      else ((0, some ((rep.headD 0) &&& 0xf)), s3)

/-- HPMUnlockACE (HPMFraud.c): send the cached 4-byte unlock key with the
Lock command; on success return immediately.  Otherwise issue the GAID
reset command (propagating its failure), then retry the Lock command once
with the same key and return that result. -/
def HPMUnlockACE (s : St) : Int × St :=
  let ((r1, _), s1) := HPMDoCommand s 0 kHPMCommandLock s.key
  if r1 = 0 then (r1, s1)
  else
    let ((r2, _), s2) := HPMDoCommand s1 0 kHPMCommandGAID []
    if r2 ≠ 0 then (r2, s2)
    else
      let ((r3, _), s3) := HPMDoCommand s2 0 kHPMCommandLock s2.key
      (r3, s3)

/-- kVDMCommandList. -/
def kVDMCommandList : Nat := 0x5ac8010

/-- kVDMCommandAction. -/
def kVDMCommandAction : Nat := 0x5ac8012

/-- kVDMActionReboot. -/
def kVDMActionReboot : Nat := 0x105

/-- kVDMActionDFU. -/
def kVDMActionDFU : Nat := 0x106

/-- kVDMActionDebugUSB. -/
def kVDMActionDebugUSB : Nat := 0x4606

/-- kVDMFlagsLine1 = 1 << 17. -/
def kVDMFlagsLine1 : Nat := 1 <<< 17

/-- kVDMFlagsGraceful = 1 << 23. -/
def kVDMFlagsGraceful : Nat := 1 <<< 23

/-- Native (little-endian) byte serialization of one 32-bit word, the
layout a uint32_t array has in memory on the targeted platforms. -/
def wordToBytes (w : Nat) : List Nat :=
  [w % 256, w / 256 % 256, w / 65536 % 256, w / 16777216 % 256]

/-- Byte serialization of a word array in array order. -/
def wordsToBytes (ws : List Nat) : List Nat :=
  (ws.map wordToBytes).flatten

/-- Known VDM sequences (HPMKnownVDM). -/
inductive HPMKnownVDM
  | list
  | reboot
  | dfu
  | debugUSB
deriving DecidableEq, Repr

/-- HPMSendKnownVDM (HPMFraud.c): each known VDM sends its static word
array with bodyLength = sizeof of that array (4 bytes per word). -/
def HPMSendKnownVDM (s : St) (chip : Nat) (knownVDM : HPMKnownVDM) : Int × St :=
  match knownVDM with
  | HPMKnownVDM.list =>
    HPMSendVDM s chip (wordsToBytes [kVDMCommandList]) 4
  | HPMKnownVDM.reboot =>
    HPMSendVDM s chip (wordsToBytes [kVDMCommandAction, kVDMActionReboot, 0x80000000]) 12
  | HPMKnownVDM.dfu =>
    HPMSendVDM s chip (wordsToBytes [kVDMCommandAction, kVDMActionDFU, 0x80010000]) 12
  | HPMKnownVDM.debugUSB =>
    HPMSendVDM s chip (wordsToBytes
      [kVDMCommandAction, kVDMFlagsGraceful ||| kVDMFlagsLine1 ||| kVDMActionDebugUSB]) 8

/-- Hex digit value of a character, as strtol accepts them in base 16. -/
def hexVal (c : Char) : Option Nat :=
  if '0' ≤ c ∧ c ≤ '9' then some (c.toNat - 48)
  else if 'a' ≤ c ∧ c ≤ 'f' then some (c.toNat - 87)
  else if 'A' ≤ c ∧ c ≤ 'F' then some (c.toNat - 55)
  else none

/-- Accumulate the maximal leading run of hex digits. -/
def parseHexRun : List Char → Nat → Nat
  | [], acc => acc
  | c :: rest, acc =>
    match hexVal c with
    | some d => parseHexRun rest (acc * 16 + d)
    | none => acc

/-- Model of libc strtol(tok, NULL, 16) cast to uint32_t, as used on the
custom-command tokens in main: skip leading whitespace, an optional sign
and an optional 0x/0X prefix, take the value of the maximal run of hex
digits (0 when there are none), negate for a leading '-', and truncate to
32 bits.  (The clamping strtol applies beyond LONG_MAX is not reachable
for tokens denoting 32-bit words and is not modelled.) -/
def strtol16 (tok : List Char) : Nat :=
  let cs := tok.dropWhile (fun c => c = ' ' ∨ c = '\t' ∨ c = '\n' ∨ c = '\r')
  let signed : Bool × List Char :=
    match cs with
    | '-' :: rest => (true, rest)
    | '+' :: rest => (false, rest)
    | _ => (false, cs)
  let digits : List Char :=
    match signed.2 with
    | '0' :: 'x' :: rest => rest
    | '0' :: 'X' :: rest => rest
    | other => other
  let v := parseHexRun digits 0 % 4294967296
  if signed.1 then (4294967296 - v) % 4294967296 else v

/-- One enumerated AppleHPM service instance; `ridProp` is its RID registry
property, `none` when the property is missing. -/
structure Device where
  ridProp : Option Int
deriving DecidableEq, Repr

/-- The IOKit enumeration environment seen by one HPMClientOpen call:
the result of IOServiceGetMatchingServices, the matched service instances
in iteration order, the result of IOCreatePlugInInterfaceForService for
the selected instance, and whether QueryInterface returns S_OK. -/
structure OpenEnv where
  enumRet : Int
  devices : List Device
  pluginRet : Int
  queryOk : Bool

/-- HPMClient: `none` fields model the plugin/interface pointers before
they are assigned. -/
structure HPMClient where
  plugin : Option Unit
  interface : Option Unit
deriving DecidableEq, Repr

/-- The iteration inside HPMFindService: walk the enumerated instances; a
missing RID property is kIOReturnError; a non-matching RID is released and
skipped; the first match succeeds; exhaustion is kIOReturnNotFound. -/
def findServiceLoop (targetRID : Int) : List Device → Int
  | [] => kIOReturnNotFound
  | d :: rest =>
    match d.ridProp with
    | none => kIOReturnError
    | some rid => if rid ≠ targetRID then findServiceLoop targetRID rest else kIOReturnSuccess

/-- HPMFindService (HPMFraud.c): propagate an enumeration failure, then run
the match-by-RID scan. -/
def HPMFindService (targetRID : Int) (env : OpenEnv) : Int :=
  if env.enumRet ≠ 0 then env.enumRet
  else findServiceLoop targetRID env.devices

/-- HPMClientOpen (HPMFraud.c): find the service (propagating its failure
with the client fields untouched), create the plugin interface (propagating
failure), query the HPM interface (kIOReturnError on failure), and only
then assign the client's plugin and interface fields. -/
def HPMClientOpen (hpm : HPMClient) (rid : Int) (env : OpenEnv) : Int × HPMClient :=
  let fr := HPMFindService rid env
  if fr ≠ 0 then (fr, hpm)
  else if env.pluginRet ≠ 0 then (env.pluginRet, hpm)
  else if !env.queryOk then (kIOReturnError, hpm)
  else (0, ⟨some (), some ()⟩)

/-- cli_enter_dbma_mode (main.c): query the mode (fatal on failure); done
if already DBMa; otherwise unlock ACE, request DBMa mode with a 1-byte
true argument, re-query, and fail fatally unless the chip is now in DBMa
mode.  `false` models a fatalf exit; the state still carries the events
issued before the exit. -/
def cli_enter_dbma_mode (s : St) : Bool × St :=
  let ((r1, mode1), s1) := HPMGetMode s
  if r1 ≠ 0 then (false, s1)
  else if mode1 = some HPMMode.dbma then (true, s1)
  else
    let (r2, s2) := HPMUnlockACE s1
    if r2 ≠ 0 then (false, s2)
    else
      let ((r3, _), s3) := HPMDoCommand s2 0 kHPMCommandDBMA [1]
      if r3 ≠ 0 then (false, s3)
      else
        let ((r4, mode4), s4) := HPMGetMode s3
        if r4 ≠ 0 then (false, s4)
        else if mode4 ≠ some HPMMode.dbma then (false, s4)
        else (true, s4)

/-- cli_exit_dbma_mode (main.c): request app mode with a 1-byte false
argument (fatal on failure), re-query the mode (fatal on failure), and
fail fatally if the chip is still in DBMa mode. -/
def cli_exit_dbma_mode (s : St) : Bool × St :=
  let ((r1, _), s1) := HPMDoCommand s 0 kHPMCommandDBMA [0]
  if r1 ≠ 0 then (false, s1)
  else
    let ((r2, mode2), s2) := HPMGetMode s1
    if r2 ≠ 0 then (false, s2)
    else if mode2 = some HPMMode.dbma then (false, s2)
    else (true, s2)

/-- CLI commands (cmd_t). -/
inductive Cmd
  | help
  | reboot
  | dfu
  | debug
  | custom
deriving DecidableEq, Repr

/-- The words array built by main's custom branch: 8 zero-initialized
32-bit words, the first `tokens.length` of which are overwritten with the
strtol16 value of the corresponding token. -/
def customWords (tokens : List (List Char)) : List Nat :=
  tokens.map strtol16 ++ List.replicate (8 - tokens.length) 0

/-- The VDM dispatch switch in main: each known command sends its known
VDM; the custom command sends the parsed word array, passing num_words
(the token count) as HPMSendVDM's bodyLength.  The help case is
unreachable (main returns before the dispatch). -/
def cli_dispatch (cmd : Cmd) (tokens : List (List Char)) (s : St) : Int × St :=
  match cmd with
  | Cmd.reboot => HPMSendKnownVDM s 0 HPMKnownVDM.reboot
  | Cmd.dfu => HPMSendKnownVDM s 0 HPMKnownVDM.dfu
  | Cmd.debug => HPMSendKnownVDM s 0 HPMKnownVDM.debugUSB
  | Cmd.custom => HPMSendVDM s 0 (wordsToBytes (customWords tokens)) tokens.length
  | Cmd.help => (0, s)

/-- Parsed command-line arguments as main consumes them. -/
structure Args where
  cmd : Cmd
  rid : Int
  tokens : List (List Char)

/-- main (main.c), from the parsed arguments onward: help exits 1; a
non-root euid exits 1; open the client (exit 1 on failure); query the
connection type (exit 1 on error or none); enter DBMa mode; dispatch the
requested VDM (exit 1 on failure); exit DBMa mode; close the client and
exit 0.  Every fatalf path returns exit code 1 together with the trace of
events issued up to that point. -/
def mainRun (args : Args) (euid : Nat) (env : OpenEnv) (oracle : Oracle)
    (key : List Nat) : Nat × List Event :=
  if args.cmd = Cmd.help then (1, [])
  else if euid ≠ 0 then (1, [])
  else
    let (oret, _) := HPMClientOpen ⟨none, none⟩ args.rid env
    if oret ≠ 0 then (1, [])
    else
      let s0 : St := ⟨oracle, 0, key, []⟩
      let (connType, s1) := HPMGetConnectionType s0
      if connType = -1 then (1, s1.trace)
      else if connType = 0 then (1, s1.trace)
      else
        let (entered, s2) := cli_enter_dbma_mode s1
        if !entered then (1, s2.trace)
        else
          let (r, s3) := cli_dispatch args.cmd args.tokens s2
          if r ≠ 0 then (1, s3.trace)
          else
            let (exited, s4) := cli_exit_dbma_mode s3
            if !exited then (1, s4.trace)
            else (0, (HPMClientClose s4).trace)

theorem take3_ne_app_of_take4_dbma (rep : List Nat) (h : rep.take 4 = dbmaTag) :
    rep.take 3 ≠ appTag := by
  have h3 : rep.take 3 = dbmaTag.take 3 := by
    rw [← h, List.take_take]
    norm_num
  rw [h3]
  decide

/-- Claim C4: for a successful mode-query read, HPMGetMode stores
Application iff the first 3 reply bytes are "APP", Diagnostic iff the
first 4 reply bytes are "DBMa", Unknown for any other reply of at least 4
bytes, and for a reply shorter than 4 bytes it returns a nonzero error
with the out-parameter unwritten. -/
theorem hpmGetMode_decode_spec (s : St) (hr : s.oracle.ret s.k = 0) :
    (4 ≤ (s.oracle.reply s.k).length →
       ((HPMGetMode s).1 = (0, some HPMMode.app) ↔ (s.oracle.reply s.k).take 3 = appTag)
     ∧ ((HPMGetMode s).1 = (0, some HPMMode.dbma) ↔ (s.oracle.reply s.k).take 4 = dbmaTag)
     ∧ ((s.oracle.reply s.k).take 3 ≠ appTag → (s.oracle.reply s.k).take 4 ≠ dbmaTag →
          (HPMGetMode s).1 = (0, some HPMMode.unknown)))
  ∧ ((s.oracle.reply s.k).length < 4 →
       (HPMGetMode s).1.1 ≠ 0 ∧ (HPMGetMode s).1.2 = none) := by
  constructor
  · intro hlen
    have h4 : ¬ (s.oracle.reply s.k).length < 4 := by omega
    by_cases hA : (s.oracle.reply s.k).take 3 = appTag
    · have hD : (s.oracle.reply s.k).take 4 ≠ dbmaTag := by
        intro hd
        exact take3_ne_app_of_take4_dbma _ hd hA
      simp [HPMGetMode, HPMRead, hr, h4, hA, hD]
    · by_cases hD : (s.oracle.reply s.k).take 4 = dbmaTag
      · simp [HPMGetMode, HPMRead, hr, h4, hA, hD]
      · simp [HPMGetMode, HPMRead, hr, h4, hA, hD]
  · intro hlen
    have hres : (HPMGetMode s).1 = (kIOReturnUnderrun, none) := by
      simp [HPMGetMode, HPMRead, hr, hlen]
    rw [hres]
    exact ⟨by decide, rfl⟩

/-- Concrete state for the C4 witness: a successful read replying "DBMa". -/
def stC4 : St := ⟨⟨fun _ => 0, fun _ => [0x44, 0x42, 0x4d, 0x61]⟩, 0, [], []⟩

theorem hpmGetMode_decode_spec_witness :
    stC4.oracle.ret stC4.k = 0
  ∧ 4 ≤ (stC4.oracle.reply stC4.k).length
  ∧ ((HPMGetMode stC4).1 = (0, some HPMMode.dbma) ↔ (stC4.oracle.reply stC4.k).take 4 = dbmaTag) :=
  ⟨rfl, by decide, ((hpmGetMode_decode_spec stC4 rfl).1 (by decide)).2.1⟩

/-- Claim C7: HPMGetConnectionType returns the error value -1 exactly when
the status read fails or delivers a zero-length reply, and otherwise
returns the low two bits of the first reply byte unchanged (so 0, 1, 3 map
to None, Source, Sink and the value 2 is passed through unmapped). -/
theorem hpmGetConnectionType_spec (s : St) :
    ((HPMGetConnectionType s).1 = -1 ↔ (s.oracle.ret s.k ≠ 0 ∨ s.oracle.reply s.k = []))
  ∧ (s.oracle.ret s.k = 0 → s.oracle.reply s.k ≠ [] →
      (HPMGetConnectionType s).1 = (((s.oracle.reply s.k).headD 0) &&& 3 : Nat)) := by
  by_cases hr : s.oracle.ret s.k = 0
  · by_cases hrep : s.oracle.reply s.k = []
    · constructor
      · simp [HPMGetConnectionType, HPMRead, hr, hrep]
      · intro _ h
        exact absurd hrep h
    · have hval : (HPMGetConnectionType s).1 = (((s.oracle.reply s.k).headD 0) &&& 3 : Nat) := by
        simp [HPMGetConnectionType, HPMRead, hr, hrep]
      constructor
      · rw [hval]
        constructor
        · intro h
          have hnn : (0 : Int) ≤ (((s.oracle.reply s.k).headD 0) &&& 3 : Nat) :=
            Int.natCast_nonneg _
          omega
        · intro h
          rcases h with h | h
          · exact absurd hr h
          · exact absurd h hrep
      · intro _ _
        exact hval
  · have hval : (HPMGetConnectionType s).1 = -1 := by
      simp [HPMGetConnectionType, HPMRead, hr]
    constructor
    · rw [hval]
      simp [hr]
    · intro h
      exact absurd h hr

/-- Concrete state for the C7 witness: the undocumented low-bits value 2 is
passed through unmapped. -/
def stC7 : St := ⟨⟨fun _ => 0, fun _ => [0x7e, 0x55]⟩, 0, [], []⟩

theorem hpmGetConnectionType_spec_witness :
    stC7.oracle.ret stC7.k = 0
  ∧ stC7.oracle.reply stC7.k ≠ []
  ∧ (HPMGetConnectionType stC7).1 = (((stC7.oracle.reply stC7.k).headD 0) &&& 3 : Nat) :=
  ⟨rfl, by decide, (hpmGetConnectionType_spec stC7).2 rfl (by decide)⟩

/-- Claim C6: each known VDM hands HPMSendVDM exactly the fixed word table
serialized 4 bytes per word in array order: List = [0x5ac8010]; Reboot =
[0x5ac8012, 0x105, 0x80000000]; DFU = [0x5ac8012, 0x106, 0x80010000];
DebugUSB = [0x5ac8012, Graceful combined with Line1 and the DebugUSB
action code]. -/
theorem hpmSendKnownVDM_frames (s : St) (chip : Nat) :
    ((HPMSendKnownVDM s chip HPMKnownVDM.list).2.trace
       = s.trace ++ [Event.sendVDM chip 3 (wordsToBytes [kVDMCommandList]) (s.oracle.ret s.k)]
     ∧ wordsToBytes [kVDMCommandList] = [0x10, 0x80, 0xac, 0x05])
  ∧ ((HPMSendKnownVDM s chip HPMKnownVDM.reboot).2.trace
       = s.trace ++ [Event.sendVDM chip 3
           (wordsToBytes [kVDMCommandAction, kVDMActionReboot, 0x80000000]) (s.oracle.ret s.k)]
     ∧ wordsToBytes [kVDMCommandAction, kVDMActionReboot, 0x80000000]
       = [0x12, 0x80, 0xac, 0x05, 0x05, 0x01, 0x00, 0x00, 0x00, 0x00, 0x00, 0x80])
  ∧ ((HPMSendKnownVDM s chip HPMKnownVDM.dfu).2.trace
       = s.trace ++ [Event.sendVDM chip 3
           (wordsToBytes [kVDMCommandAction, kVDMActionDFU, 0x80010000]) (s.oracle.ret s.k)]
     ∧ wordsToBytes [kVDMCommandAction, kVDMActionDFU, 0x80010000]
       = [0x12, 0x80, 0xac, 0x05, 0x06, 0x01, 0x00, 0x00, 0x00, 0x00, 0x01, 0x80])
  ∧ ((HPMSendKnownVDM s chip HPMKnownVDM.debugUSB).2.trace
       = s.trace ++ [Event.sendVDM chip 3
           (wordsToBytes [kVDMCommandAction,
             kVDMFlagsGraceful ||| kVDMFlagsLine1 ||| kVDMActionDebugUSB]) (s.oracle.ret s.k)]
     ∧ kVDMFlagsGraceful ||| kVDMFlagsLine1 ||| kVDMActionDebugUSB = 0x824606
     ∧ wordsToBytes [kVDMCommandAction, 0x824606]
       = [0x12, 0x80, 0xac, 0x05, 0x06, 0x46, 0x82, 0x00]) :=
  ⟨⟨rfl, by decide⟩, ⟨rfl, by decide⟩, ⟨rfl, by decide⟩, ⟨rfl, by decide, by decide⟩⟩

/-- Claim C10: in HPMDoCommand, when the argument write, the command issue
and the reply read-back all succeed but the read-back reply is empty, the
command still returns success with the out-parameter unwritten; and the
low-nibble result code is stored only when the reply is non-empty. -/
theorem hpmDoCommand_empty_reply_success (s : St) (chip code : Nat) (args : List Nat)
    (hargs : args ≠ [])
    (hw : s.oracle.ret s.k = 0)
    (hc : s.oracle.ret (s.k + 1) = 0)
    (hrb : s.oracle.ret (s.k + 2) = 0) :
    (s.oracle.reply (s.k + 2) = [] →
       (HPMDoCommand s chip code args).1 = (kIOReturnSuccess, none))
  ∧ (∀ v, (HPMDoCommand s chip code args).1.2 = some v →
       s.oracle.reply (s.k + 2) ≠ []
       ∧ v = ((s.oracle.reply (s.k + 2)).headD 0) &&& 0xf) := by
  constructor
  · intro hempty
    simp [HPMDoCommand, ifaceWrite, ifaceCommand, HPMRead, hargs, hw, hc, hrb, hempty,
      kIOReturnSuccess]
  · intro v hv
    by_cases hempty : s.oracle.reply (s.k + 2) = []
    · exfalso
      have hres : (HPMDoCommand s chip code args).1 = (kIOReturnSuccess, none) := by
        simp [HPMDoCommand, ifaceWrite, ifaceCommand, HPMRead, hargs, hw, hc, hrb, hempty,
          kIOReturnSuccess]
      rw [hres] at hv
      simp at hv
    · refine ⟨hempty, ?_⟩
      have hres : (HPMDoCommand s chip code args).1
          = (0, some (((s.oracle.reply (s.k + 2)).headD 0) &&& 0xf)) := by
        simp [HPMDoCommand, ifaceWrite, ifaceCommand, HPMRead, hargs, hw, hc, hrb, hempty]
      rw [hres] at hv
      simp at hv
      simp_all

/-- Concrete state for the C10 witness: every transport call succeeds and
every read replies with zero bytes. -/
def stC10 : St := ⟨⟨fun _ => 0, fun _ => []⟩, 0, [], []⟩

theorem hpmDoCommand_empty_reply_success_witness :
    ([1, 2, 3, 4] : List Nat) ≠ []
  ∧ stC10.oracle.ret stC10.k = 0
  ∧ stC10.oracle.reply (stC10.k + 2) = []
  ∧ (HPMDoCommand stC10 0 kHPMCommandLock [1, 2, 3, 4]).1 = (kIOReturnSuccess, none) :=
  ⟨by decide, rfl, rfl,
    (hpmDoCommand_empty_reply_success stC10 0 kHPMCommandLock [1, 2, 3, 4]
      (by decide) rfl rfl rfl).1 rfl⟩

/-- Events that change hardware state: register writes, command issues and
raw VDM transmissions (reads and the handle release are not writes). -/
def isMutatingEvent : Event → Bool
  | Event.write _ _ _ _ => true
  | Event.command _ _ _ => true
  | Event.sendVDM _ _ _ _ => true
  | _ => false

/-- Claim C8: when the mode query succeeds and already reports DBMa,
cli_enter_dbma_mode returns successfully after that single read, issuing
zero hardware writes (no unlock, no DBMa-enter command). -/
theorem enter_dbma_idempotent (s : St)
    (hr : s.oracle.ret s.k = 0)
    (hlen : 4 ≤ (s.oracle.reply s.k).length)
    (htag : (s.oracle.reply s.k).take 4 = dbmaTag) :
    (cli_enter_dbma_mode s).1 = true
  ∧ (cli_enter_dbma_mode s).2.trace = s.trace ++ [Event.read 0 0x3 0 (s.oracle.reply s.k)]
  ∧ ((cli_enter_dbma_mode s).2.trace.drop s.trace.length).filter isMutatingEvent = [] := by
  have h4 : ¬ (s.oracle.reply s.k).length < 4 := by omega
  have hA : (s.oracle.reply s.k).take 3 ≠ appTag := take3_ne_app_of_take4_dbma _ htag
  have htr : (cli_enter_dbma_mode s).2.trace
      = s.trace ++ [Event.read 0 0x3 0 (s.oracle.reply s.k)] := by
    simp [cli_enter_dbma_mode, HPMGetMode, HPMRead, hr, h4, hA, htag]
  refine ⟨?_, htr, ?_⟩
  · simp [cli_enter_dbma_mode, HPMGetMode, HPMRead, hr, h4, hA, htag]
  · rw [htr, List.drop_left]
    rfl

/-- Concrete state for the C8 witness: the chip reports DBMa immediately. -/
def stC8 : St := ⟨⟨fun _ => 0, fun _ => [0x44, 0x42, 0x4d, 0x61, 0x00]⟩, 0, [1, 2, 3, 4], []⟩

theorem enter_dbma_idempotent_witness :
    stC8.oracle.ret stC8.k = 0
  ∧ 4 ≤ (stC8.oracle.reply stC8.k).length
  ∧ (stC8.oracle.reply stC8.k).take 4 = dbmaTag
  ∧ ((cli_enter_dbma_mode stC8).1 = true
     ∧ (cli_enter_dbma_mode stC8).2.trace
         = stC8.trace ++ [Event.read 0 0x3 0 (stC8.oracle.reply stC8.k)]
     ∧ ((cli_enter_dbma_mode stC8).2.trace.drop stC8.trace.length).filter isMutatingEvent = []) :=
  ⟨rfl, by decide, by decide, enter_dbma_idempotent stC8 rfl (by decide) (by decide)⟩

theorem findServiceLoop_not_found (rid : Int) (ds : List Device)
    (h : ∀ d ∈ ds, d.ridProp ≠ none ∧ d.ridProp ≠ some rid) :
    findServiceLoop rid ds = kIOReturnNotFound := by
  induction ds with
  | nil => rfl
  | cons d rest ih =>
    obtain ⟨hsome, hne⟩ := h d (List.mem_cons_self _ _)
    match hd : d.ridProp with
    | none => exact absurd hd hsome
    | some v =>
      rw [hd] at hne
      have hv : v ≠ rid := fun hv => hne (by rw [hv])
      simp only [findServiceLoop, hd, if_pos hv]
      exact ih fun d' hd' => h d' (List.mem_cons_of_mem _ hd')

/-- Claim C9 (amended): when service enumeration succeeds, every
enumerated instance carries a RID property and none equals the requested
RID, HPMClientOpen returns kIOReturnNotFound with the client fields left
unset; and on every failing open, whatever the cause, the client fields
are left unset. -/
theorem hpmClientOpen_not_found_spec (rid : Int) (env : OpenEnv) (hpm : HPMClient)
    (henum : env.enumRet = 0)
    (hprops : ∀ d ∈ env.devices, d.ridProp ≠ none ∧ d.ridProp ≠ some rid) :
    HPMClientOpen hpm rid env = (kIOReturnNotFound, hpm)
  ∧ (∀ rid2 env2, (HPMClientOpen hpm rid2 env2).1 ≠ 0 → (HPMClientOpen hpm rid2 env2).2 = hpm) := by
  constructor
  · have hfind : HPMFindService rid env = kIOReturnNotFound := by
      simp only [HPMFindService, henum]
      simp only [ne_eq, not_true_eq_false, if_false, reduceIte]
      exact findServiceLoop_not_found rid env.devices hprops
    have hnz : kIOReturnNotFound ≠ 0 := by decide
    simp [HPMClientOpen, hfind, hnz]
  · intro rid2 env2 h
    by_cases hfr : HPMFindService rid2 env2 = 0
    · by_cases hp : env2.pluginRet = 0
      · by_cases hq : env2.queryOk
        · exfalso
          apply h
          simp [HPMClientOpen, hfr, hp, hq]
        · simp [HPMClientOpen, hfr, hp, hq]
      · simp [HPMClientOpen, hfr, hp]
    · simp [HPMClientOpen, hfr]

/-- Enumeration environment for the C9 counterexample: one instance whose
RID registry property is missing. -/
def c9Env : OpenEnv := ⟨0, [⟨none⟩], 0, true⟩

/-- Claim C9 as frozen fails on the code: with one enumerated instance
lacking a RID property, no instance has a RID property equal to 5, yet
HPMClientOpen returns the generic kIOReturnError instead of
kIOReturnNotFound (it does still produce no handle). -/
theorem hpmClientOpen_missing_rid_property :
    (∀ d ∈ c9Env.devices, d.ridProp ≠ some 5)
  ∧ HPMClientOpen ⟨none, none⟩ 5 c9Env = (kIOReturnError, ⟨none, none⟩)
  ∧ kIOReturnError ≠ kIOReturnNotFound := by
  refine ⟨by decide, ?_, by decide⟩
  rfl

/-- Enumeration environment for the C9 witness: two instances with RID
properties 1 and 2. -/
def c9EnvW : OpenEnv := ⟨0, [⟨some 1⟩, ⟨some 2⟩], 0, true⟩

theorem hpmClientOpen_not_found_spec_witness :
    c9EnvW.enumRet = 0
  ∧ (∀ d ∈ c9EnvW.devices, d.ridProp ≠ none ∧ d.ridProp ≠ some 5)
  ∧ HPMClientOpen ⟨none, none⟩ 5 c9EnvW = (kIOReturnNotFound, ⟨none, none⟩) :=
  ⟨rfl, by decide, (hpmClientOpen_not_found_spec 5 c9EnvW ⟨none, none⟩ rfl (by decide)).1⟩

theorem snd_ite_shared {α β : Type} (c : Prop) [Decidable c] (a b : α) (s : β) :
    (if c then (a, s) else (b, s)).2 = s := by
  split <;> rfl

/-- Shapes of the trace an HPMDoCommand call with a non-empty argument
buffer can append: the key-write alone (write failed), write then command
(command failed), or write, command and reply read-back. -/
theorem hpmDoCommand_shape_args (s : St) (chip code : Nat) (args : List Nat) (h : args ≠ []) :
    (HPMDoCommand s chip code args).2.key = s.key
  ∧ (HPMDoCommand s chip code args).2.oracle = s.oracle
  ∧ ((∃ r, (HPMDoCommand s chip code args).2.trace = s.trace ++ [Event.write chip 9 args r])
    ∨ (∃ r c, (HPMDoCommand s chip code args).2.trace
        = s.trace ++ [Event.write chip 9 args r, Event.command chip code c])
    ∨ (∃ r c rr rep, (HPMDoCommand s chip code args).2.trace
        = s.trace ++ [Event.write chip 9 args r, Event.command chip code c,
            Event.read chip 9 rr rep])) := by
  by_cases hw : s.oracle.ret s.k = 0
  · by_cases hc : s.oracle.ret (s.k + 1) = 0
    · refine ⟨?_, ?_, Or.inr (Or.inr
        ⟨s.oracle.ret s.k, s.oracle.ret (s.k + 1), s.oracle.ret (s.k + 2),
         if s.oracle.ret (s.k + 2) = 0 then s.oracle.reply (s.k + 2) else [], ?_⟩)⟩ <;>
        simp [HPMDoCommand, ifaceWrite, ifaceCommand, HPMRead, h, hw, hc, snd_ite_shared]
    · refine ⟨?_, ?_, Or.inr (Or.inl ⟨s.oracle.ret s.k, s.oracle.ret (s.k + 1), ?_⟩)⟩ <;>
        simp [HPMDoCommand, ifaceWrite, ifaceCommand, h, hw, hc]
  · refine ⟨?_, ?_, Or.inl ⟨s.oracle.ret s.k, ?_⟩⟩ <;>
      simp [HPMDoCommand, ifaceWrite, h, hw]

/-- Shapes of the trace an HPMDoCommand call with no argument buffer can
append: the command alone (command failed), or command then read-back. -/
theorem hpmDoCommand_shape_noargs (s : St) (chip code : Nat) :
    (HPMDoCommand s chip code []).2.key = s.key
  ∧ (HPMDoCommand s chip code []).2.oracle = s.oracle
  ∧ ((∃ c, (HPMDoCommand s chip code []).2.trace = s.trace ++ [Event.command chip code c])
    ∨ (∃ c rr rep, (HPMDoCommand s chip code []).2.trace
        = s.trace ++ [Event.command chip code c, Event.read chip 9 rr rep])) := by
  by_cases hc : s.oracle.ret s.k = 0
  · refine ⟨?_, ?_, Or.inr
      ⟨s.oracle.ret s.k, s.oracle.ret (s.k + 1),
       if s.oracle.ret (s.k + 1) = 0 then s.oracle.reply (s.k + 1) else [], ?_⟩⟩ <;>
      simp [HPMDoCommand, ifaceCommand, HPMRead, hc, snd_ite_shared]
  · refine ⟨?_, ?_, Or.inl ⟨s.oracle.ret s.k, ?_⟩⟩ <;>
      simp [HPMDoCommand, ifaceCommand, hc]

/-- Recognizes a GAID reset command issue. -/
def isGaidEvent : Event → Bool
  | Event.command _ code _ => code == kHPMCommandGAID
  | _ => false

/-- Recognizes the argument write that begins a Lock attempt carrying the
unlock key. -/
def isKeyWriteEvent (key : List Nat) : Event → Bool
  | Event.write _ address data _ => address == 9 && data == key
  | _ => false

/-- The first Lock attempt of the unlock handshake. -/
def unlockAttempt1 (s : St) : (Int × Option Nat) × St :=
  HPMDoCommand s 0 kHPMCommandLock s.key

/-- The GAID reset of the unlock handshake, issued after a failed first
Lock attempt. -/
def unlockReset (s : St) : (Int × Option Nat) × St :=
  HPMDoCommand (unlockAttempt1 s).2 0 kHPMCommandGAID []

/-- The retried Lock attempt of the unlock handshake. -/
def unlockAttempt2 (s : St) : (Int × Option Nat) × St :=
  HPMDoCommand (unlockReset s).2 0 kHPMCommandLock (unlockReset s).2.key

theorem hpmUnlockACE_eq_cases (s : St) :
    HPMUnlockACE s =
      (if (unlockAttempt1 s).1.1 = 0 then ((unlockAttempt1 s).1.1, (unlockAttempt1 s).2)
       else if (unlockReset s).1.1 ≠ 0 then ((unlockReset s).1.1, (unlockReset s).2)
       else ((unlockAttempt2 s).1.1, (unlockAttempt2 s).2)) := by
  unfold HPMUnlockACE unlockAttempt2 unlockReset unlockAttempt1
  rcases he1 : HPMDoCommand s 0 kHPMCommandLock s.key with ⟨⟨r1, o1⟩, s1⟩
  simp only [he1]

/-- Claim C5: in HPMUnlockACE, a successful first Lock attempt is returned
directly with no GAID reset issued and exactly one key write; if the first
Lock fails and the GAID reset fails, the reset's error is returned with no
second Lock attempt (one key write, one GAID issue); if the first Lock
fails and the reset succeeds, the result of exactly one retried Lock
attempt with the same key is returned (two key writes of the identical
key, one GAID issue). -/
theorem hpmUnlockACE_retry_spec (s : St) (hkey : s.key ≠ []) :
    ((unlockAttempt1 s).1.1 = 0 →
        HPMUnlockACE s = ((unlockAttempt1 s).1.1, (unlockAttempt1 s).2)
      ∧ (((HPMUnlockACE s).2.trace.drop s.trace.length).filter isGaidEvent).length = 0
      ∧ (((HPMUnlockACE s).2.trace.drop s.trace.length).filter (isKeyWriteEvent s.key)).length = 1)
  ∧ ((unlockAttempt1 s).1.1 ≠ 0 → (unlockReset s).1.1 ≠ 0 →
        HPMUnlockACE s = ((unlockReset s).1.1, (unlockReset s).2)
      ∧ (((HPMUnlockACE s).2.trace.drop s.trace.length).filter isGaidEvent).length = 1
      ∧ (((HPMUnlockACE s).2.trace.drop s.trace.length).filter (isKeyWriteEvent s.key)).length = 1)
  ∧ ((unlockAttempt1 s).1.1 ≠ 0 → (unlockReset s).1.1 = 0 →
        HPMUnlockACE s = ((unlockAttempt2 s).1.1, (unlockAttempt2 s).2)
      ∧ (unlockReset s).2.key = s.key
      ∧ (((HPMUnlockACE s).2.trace.drop s.trace.length).filter isGaidEvent).length = 1
      ∧ (((HPMUnlockACE s).2.trace.drop s.trace.length).filter (isKeyWriteEvent s.key)).length = 2) := by
  obtain ⟨hk1, ho1, hsh1⟩ := hpmDoCommand_shape_args s 0 kHPMCommandLock s.key hkey
  obtain ⟨hk2, ho2, hsh2⟩ :=
    hpmDoCommand_shape_noargs (HPMDoCommand s 0 kHPMCommandLock s.key).2 0 kHPMCommandGAID
  have hkey2 : (unlockReset s).2.key = s.key := by
    unfold unlockReset unlockAttempt1
    rw [hk2, hk1]
  refine ⟨?_, ?_, ?_⟩
  · intro h1
    have hres : HPMUnlockACE s = ((unlockAttempt1 s).1.1, (unlockAttempt1 s).2) := by
      rw [hpmUnlockACE_eq_cases, if_pos h1]
    refine ⟨hres, ?_, ?_⟩ <;>
      · rw [hres]
        show (((HPMDoCommand s 0 kHPMCommandLock s.key).2.trace.drop s.trace.length).filter
          _).length = _
        rcases hsh1 with ⟨r, htr⟩ | ⟨r, c, htr⟩ | ⟨r, c, rr, rep, htr⟩ <;>
          rw [htr, List.drop_left] <;>
          simp [isGaidEvent, isKeyWriteEvent, kHPMCommandLock, kHPMCommandGAID]
  · intro h1 h2
    have hres : HPMUnlockACE s = ((unlockReset s).1.1, (unlockReset s).2) := by
      rw [hpmUnlockACE_eq_cases, if_neg h1, if_pos h2]
    refine ⟨hres, ?_, ?_⟩ <;>
      · rw [hres]
        show (((HPMDoCommand (HPMDoCommand s 0 kHPMCommandLock s.key).2 0
          kHPMCommandGAID []).2.trace.drop s.trace.length).filter _).length = _
        rcases hsh1 with ⟨r, htr⟩ | ⟨r, c, htr⟩ | ⟨r, c, rr, rep, htr⟩ <;>
          rcases hsh2 with ⟨c2, htr2⟩ | ⟨c2, rr2, rep2, htr2⟩ <;>
          rw [htr2, htr, List.append_assoc, List.drop_left] <;>
          simp [isGaidEvent, isKeyWriteEvent, kHPMCommandLock, kHPMCommandGAID]
  · intro h1 h2
    have hres : HPMUnlockACE s = ((unlockAttempt2 s).1.1, (unlockAttempt2 s).2) := by
      rw [hpmUnlockACE_eq_cases, if_neg h1, if_neg (by simpa using h2)]
    obtain ⟨hk3, ho3, hsh3⟩ := hpmDoCommand_shape_args (unlockReset s).2 0 kHPMCommandLock
      (unlockReset s).2.key (by rw [hkey2]; exact hkey)
    refine ⟨hres, hkey2, ?_, ?_⟩ <;>
      · rw [hres]
        show (((HPMDoCommand (unlockReset s).2 0 kHPMCommandLock
          (unlockReset s).2.key).2.trace.drop s.trace.length).filter _).length = _
        have htr2' : (unlockReset s).2.trace
            = (HPMDoCommand (HPMDoCommand s 0 kHPMCommandLock s.key).2 0
                kHPMCommandGAID []).2.trace := rfl
        rcases hsh3 with ⟨r3, htr3⟩ | ⟨r3, c3, htr3⟩ | ⟨r3, c3, rr3, rep3, htr3⟩ <;>
          rw [htr3, hkey2, htr2'] <;>
          rcases hsh2 with ⟨c2, htr2⟩ | ⟨c2, rr2, rep2, htr2⟩ <;>
          rcases hsh1 with ⟨r, htr⟩ | ⟨r, c, htr⟩ | ⟨r, c, rr, rep, htr⟩ <;>
          rw [htr2, htr, List.append_assoc, List.append_assoc, List.drop_left] <;>
          simp [isGaidEvent, isKeyWriteEvent, kHPMCommandLock, kHPMCommandGAID]

/-- Concrete state for the C5 witness: the first Lock attempt fails at its
argument write, the GAID reset succeeds, the retried Lock succeeds. -/
def stC5 : St :=
  ⟨⟨fun n => if n = 0 then kIOReturnError else 0, fun _ => [0]⟩, 0, [1, 2, 3, 4], []⟩

theorem hpmUnlockACE_retry_spec_witness :
    stC5.key ≠ []
  ∧ (unlockAttempt1 stC5).1.1 ≠ 0
  ∧ (unlockReset stC5).1.1 = 0
  ∧ (HPMUnlockACE stC5 = ((unlockAttempt2 stC5).1.1, (unlockAttempt2 stC5).2)
     ∧ (unlockReset stC5).2.key = stC5.key
     ∧ (((HPMUnlockACE stC5).2.trace.drop stC5.trace.length).filter isGaidEvent).length = 1
     ∧ (((HPMUnlockACE stC5).2.trace.drop stC5.trace.length).filter
          (isKeyWriteEvent stC5.key)).length = 2) :=
  ⟨by decide, by decide, by decide,
    (hpmUnlockACE_retry_spec stC5 (by decide)).2.2 (by decide) (by decide)⟩

/-- Parsed arguments for the C1 run: `custom 1 2 3` on RID 0. -/
def argsC1 : Args := ⟨Cmd.custom, 0, [['1'], ['2'], ['3']]⟩

/-- Enumeration environment in which open succeeds for RID 0. -/
def envOpenOk : OpenEnv := ⟨0, [⟨some 0⟩], 0, true⟩

/-- Oracle for the C1 run: every call succeeds; the connection reads as
Source, the first mode query replies "DBMa", the command read-back is one
byte, and the final mode query replies "APP". -/
def oracleC1 : Oracle :=
  ⟨fun _ => 0,
   fun n =>
     if n = 0 then [1]
     else if n = 1 then [0x44, 0x42, 0x4d, 0x61]
     else if n = 5 then [0]
     else [0x41, 0x50, 0x50, 0x00]⟩

/-- Claim C1 fails on the code (code bug): for the custom invocation with
the 3 valid hex tokens 1, 2, 3, main passes num_words = 3 as HPMSendVDM's
bodyLength, which that function documents as a byte count, so the frame
handed to the raw-send primitive is the 3 bytes [0x01, 0x00, 0x00] instead
of the 12 bytes of the three 32-bit words; the malformed-token half of the
claim does hold: a malformed token such as "zz" becomes word value 0 and
the command proceeds. -/
theorem customVDM_frame_bug :
    mainRun argsC1 0 envOpenOk oracleC1 [9, 9, 9, 9] =
      (0, [Event.read 0 0x3f 0 [1],
           Event.read 0 0x3 0 [0x44, 0x42, 0x4d, 0x61],
           Event.sendVDM 0 3 [1, 0, 0] 0,
           Event.write 0 9 [0] 0,
           Event.command 0 kHPMCommandDBMA 0,
           Event.read 0 9 0 [0],
           Event.read 0 0x3 0 [0x41, 0x50, 0x50, 0x00],
           Event.close])
  ∧ ([1, 0, 0] : List Nat).length = 3
  ∧ ([1, 0, 0] : List Nat) ≠ wordsToBytes [1, 2, 3]
  ∧ (wordsToBytes [1, 2, 3]).length = 12
  ∧ (wordsToBytes (customWords [['1'], ['z', 'z'], ['3']])).take 12 = wordsToBytes [1, 0, 3] := by
  refine ⟨?_, by decide, by decide, by decide, by decide⟩
  decide

/-- Recognizes a raw VDM transmission. -/
def isSendEvent : Event → Bool
  | Event.sendVDM _ _ _ _ => true
  | _ => false

/-- Recognizes the argument write that begins the app-mode restore
request: the DBMa command's single false byte written to address 9. -/
def isRestoreWrite : Event → Bool
  | Event.write _ address data _ => address == 9 && data == [0]
  | _ => false

/-- A stretch of trace containing no VDM transmission, no handle release,
and no restore write (unless the unlock key itself is the one byte 0,
which a real 4-byte key never is). -/
def benignDelta (key : List Nat) (Δ : List Event) : Prop :=
  ∀ e ∈ Δ, isSendEvent e = false ∧ e ≠ Event.close ∧ (isRestoreWrite e = true → key = [0])

theorem benignDelta_append (key : List Nat) (a b : List Event)
    (ha : benignDelta key a) (hb : benignDelta key b) : benignDelta key (a ++ b) := by
  intro e he
  rcases List.mem_append.mp he with h | h
  · exact ha e h
  · exact hb e h

theorem getConnectionType_delta (s : St) :
    (HPMGetConnectionType s).2.key = s.key
  ∧ (HPMGetConnectionType s).2.oracle = s.oracle
  ∧ ∃ r rep, (HPMGetConnectionType s).2.trace = s.trace ++ [Event.read 0 0x3f r rep] := by
  refine ⟨?_, ?_, s.oracle.ret s.k,
    if s.oracle.ret s.k = 0 then s.oracle.reply s.k else [], ?_⟩ <;>
    · by_cases h1 : s.oracle.ret s.k = 0 <;>
        by_cases h2 : s.oracle.reply s.k = [] <;>
        simp [HPMGetConnectionType, HPMRead, h1, h2]

theorem getMode_delta (s : St) :
    (HPMGetMode s).2.key = s.key
  ∧ (HPMGetMode s).2.oracle = s.oracle
  ∧ ∃ r rep, (HPMGetMode s).2.trace = s.trace ++ [Event.read 0 0x3 r rep] := by
  refine ⟨?_, ?_, s.oracle.ret s.k,
    if s.oracle.ret s.k = 0 then s.oracle.reply s.k else [], ?_⟩ <;>
    · by_cases h1 : s.oracle.ret s.k = 0 <;>
        by_cases h2 : (s.oracle.reply s.k).length < 4 <;>
        by_cases h3 : (s.oracle.reply s.k).take 3 = appTag <;>
        by_cases h4 : (s.oracle.reply s.k).take 4 = dbmaTag <;>
        simp [HPMGetMode, HPMRead, h1, h2, h3, h4]

theorem getMode_dbma_read (s : St) (h : (HPMGetMode s).1.2 = some HPMMode.dbma) :
    ∃ rep, (HPMGetMode s).2.trace = s.trace ++ [Event.read 0 0x3 0 rep]
      ∧ rep.take 4 = dbmaTag := by
  by_cases h1 : s.oracle.ret s.k = 0
  · by_cases h2 : (s.oracle.reply s.k).length < 4
    · exact absurd h (by simp [HPMGetMode, HPMRead, h1, h2])
    · by_cases h3 : (s.oracle.reply s.k).take 3 = appTag
      · exact absurd h (by simp [HPMGetMode, HPMRead, h1, h2, h3])
      · by_cases h4 : (s.oracle.reply s.k).take 4 = dbmaTag
        · exact ⟨s.oracle.reply s.k, by simp [HPMGetMode, HPMRead, h1, h2, h3, h4], h4⟩
        · exact absurd h (by simp [HPMGetMode, HPMRead, h1, h2, h3, h4])
  · exact absurd h (by simp [HPMGetMode, HPMRead, h1])

theorem doCommand_delta_events (s : St) (chip code : Nat) (args : List Nat) :
    (HPMDoCommand s chip code args).2.key = s.key
  ∧ (HPMDoCommand s chip code args).2.oracle = s.oracle
  ∧ ∃ Δ, (HPMDoCommand s chip code args).2.trace = s.trace ++ Δ
     ∧ ∀ e ∈ Δ, isSendEvent e = false ∧ e ≠ Event.close
         ∧ (isRestoreWrite e = true → args = [0]) := by
  by_cases hargs : args = []
  · subst hargs
    obtain ⟨hk, ho, hsh⟩ := hpmDoCommand_shape_noargs s chip code
    refine ⟨hk, ho, ?_⟩
    rcases hsh with ⟨c, htr⟩ | ⟨c, rr, rep, htr⟩ <;>
      exact ⟨_, htr, by simp [isSendEvent, isRestoreWrite]⟩
  · obtain ⟨hk, ho, hsh⟩ := hpmDoCommand_shape_args s chip code args hargs
    refine ⟨hk, ho, ?_⟩
    have hwr : ∀ r : Int, isSendEvent (Event.write chip 9 args r) = false
        ∧ Event.write chip 9 args r ≠ Event.close
        ∧ (isRestoreWrite (Event.write chip 9 args r) = true → args = [0]) := by
      intro r
      refine ⟨rfl, by simp, ?_⟩
      intro hres
      simp only [isRestoreWrite, Bool.and_eq_true, beq_iff_eq] at hres
      exact hres.2
    rcases hsh with ⟨r, htr⟩ | ⟨r, c, htr⟩ | ⟨r, c, rr, rep, htr⟩
    · refine ⟨_, htr, ?_⟩
      intro e he
      rcases List.mem_singleton.mp he with rfl
      exact hwr r
    · refine ⟨_, htr, ?_⟩
      intro e he
      rcases List.mem_cons.mp he with rfl | he
      · exact hwr r
      · rcases List.mem_singleton.mp he with rfl
        exact ⟨rfl, by simp, by simp [isRestoreWrite]⟩
    · refine ⟨_, htr, ?_⟩
      intro e he
      rcases List.mem_cons.mp he with rfl | he
      · exact hwr r
      · rcases List.mem_cons.mp he with rfl | he
        · exact ⟨rfl, by simp, by simp [isRestoreWrite]⟩
        · rcases List.mem_singleton.mp he with rfl
          exact ⟨rfl, by simp, by simp [isRestoreWrite]⟩

theorem unlock_benign (s : St) :
    (HPMUnlockACE s).2.key = s.key
  ∧ (HPMUnlockACE s).2.oracle = s.oracle
  ∧ ∃ Δ, (HPMUnlockACE s).2.trace = s.trace ++ Δ ∧ benignDelta s.key Δ := by
  obtain ⟨hk1, ho1, Δ1, htr1, hb1⟩ := doCommand_delta_events s 0 kHPMCommandLock s.key
  obtain ⟨hk2, ho2, Δ2, htr2, hb2⟩ :=
    doCommand_delta_events (unlockAttempt1 s).2 0 kHPMCommandGAID []
  obtain ⟨hk3, ho3, Δ3, htr3, hb3⟩ :=
    doCommand_delta_events (unlockReset s).2 0 kHPMCommandLock (unlockReset s).2.key
  have hkey2 : (unlockReset s).2.key = s.key := by
    show (HPMDoCommand (unlockAttempt1 s).2 0 kHPMCommandGAID []).2.key = s.key
    rw [hk2]
    exact hk1
  have hbb1 : benignDelta s.key Δ1 := by
    intro e he
    obtain ⟨hs, hc, hr⟩ := hb1 e he
    exact ⟨hs, hc, hr⟩
  have hbb2 : benignDelta s.key Δ2 := by
    intro e he
    obtain ⟨hs, hc, hr⟩ := hb2 e he
    exact ⟨hs, hc, fun h => absurd (hr h) (by simp)⟩
  have hbb3 : benignDelta s.key Δ3 := by
    intro e he
    obtain ⟨hs, hc, hr⟩ := hb3 e he
    exact ⟨hs, hc, fun h => by rw [← hkey2]; exact hr h⟩
  rw [hpmUnlockACE_eq_cases]
  by_cases h1 : (unlockAttempt1 s).1.1 = 0
  · rw [if_pos h1]
    exact ⟨hk1, ho1, Δ1, htr1, hbb1⟩
  · rw [if_neg h1]
    by_cases h2 : (unlockReset s).1.1 ≠ 0
    · rw [if_pos h2]
      have hor : (unlockReset s).2.oracle = s.oracle := by
        show (HPMDoCommand _ _ _ _).2.oracle = _
        rw [ho2]
        exact ho1
      refine ⟨by rw [hkey2], hor, ?_⟩
      refine ⟨Δ1 ++ Δ2, ?_, benignDelta_append _ _ _ hbb1 hbb2⟩
      show (HPMDoCommand (unlockAttempt1 s).2 0 kHPMCommandGAID []).2.trace = _
      rw [htr2]
      show (HPMDoCommand s 0 kHPMCommandLock s.key).2.trace ++ Δ2 = _
      rw [htr1, List.append_assoc]
    · rw [if_neg h2]
      have hko : (unlockAttempt2 s).2.key = s.key := by
        show (HPMDoCommand _ _ _ _).2.key = s.key
        rw [hk3, hkey2]
      have hoo : (unlockAttempt2 s).2.oracle = s.oracle := by
        show (HPMDoCommand _ _ _ _).2.oracle = s.oracle
        rw [ho3]
        show (HPMDoCommand _ _ _ _).2.oracle = s.oracle
        rw [ho2]
        exact ho1
      refine ⟨hko, hoo, Δ1 ++ Δ2 ++ Δ3, ?_,
        benignDelta_append _ _ _ (benignDelta_append _ _ _ hbb1 hbb2) hbb3⟩
      show (HPMDoCommand (unlockReset s).2 0 kHPMCommandLock (unlockReset s).2.key).2.trace = _
      rw [htr3]
      show (HPMDoCommand (unlockAttempt1 s).2 0 kHPMCommandGAID []).2.trace ++ Δ3 = _
      rw [htr2]
      show (HPMDoCommand s 0 kHPMCommandLock s.key).2.trace ++ Δ2 ++ Δ3 = _
      rw [htr1, List.append_assoc, List.append_assoc, List.append_assoc]

theorem benignDelta_read (key : List Nat) (chip a : Nat) (r : Int) (rep : List Nat) :
    benignDelta key [Event.read chip a r rep] := by
  intro e he
  rcases List.mem_singleton.mp he with rfl
  exact ⟨rfl, by simp, by simp [isRestoreWrite]⟩

theorem benignDelta_of_docmd (key args : List Nat) (Δ : List Event)
    (hne : args ≠ [0])
    (h : ∀ e ∈ Δ, isSendEvent e = false ∧ e ≠ Event.close
        ∧ (isRestoreWrite e = true → args = [0])) :
    benignDelta key Δ := by
  intro e he
  obtain ⟨hs, hc, hr⟩ := h e he
  exact ⟨hs, hc, fun hh => absurd (hr hh) hne⟩

theorem snd_ite_shared3 {α β : Type} (c1 c2 : Prop) [Decidable c1] [Decidable c2]
    (a b c : α) (s : β) :
    (if c1 then (a, s) else if c2 then (b, s) else (c, s)).2 = s := by
  split
  · rfl
  · split <;> rfl

theorem enter_delta (s : St) :
    (cli_enter_dbma_mode s).2.key = s.key
  ∧ (cli_enter_dbma_mode s).2.oracle = s.oracle
  ∧ ∃ Δ, (cli_enter_dbma_mode s).2.trace = s.trace ++ Δ
     ∧ benignDelta s.key Δ
     ∧ ((cli_enter_dbma_mode s).1 = true →
          ∃ rep, Event.read 0 0x3 0 rep ∈ Δ ∧ rep.take 4 = dbmaTag) := by
  obtain ⟨hmk, hmo, r0, rep0, hmt⟩ := getMode_delta s
  have hdbma := getMode_dbma_read s
  rcases hm : HPMGetMode s with ⟨⟨r1, mode1⟩, sA⟩
  simp only [hm] at hmk hmo hmt hdbma
  simp only [cli_enter_dbma_mode, hm]
  by_cases h1 : r1 ≠ 0
  · simp only [if_pos h1]
    exact ⟨hmk, hmo, [Event.read 0 0x3 r0 rep0], hmt, benignDelta_read _ _ _ _ _, by simp⟩
  · simp only [if_neg h1]
    by_cases h2 : mode1 = some HPMMode.dbma
    · simp only [if_pos h2]
      obtain ⟨rep, htr', htag⟩ := hdbma (by simp [h2])
      exact ⟨hmk, hmo, [Event.read 0 0x3 0 rep], htr',
        benignDelta_read _ _ _ _ _, fun _ => ⟨rep, List.mem_singleton.mpr rfl, htag⟩⟩
    · simp only [if_neg h2]
      obtain ⟨huk, huo, Δu, hut, hub⟩ := unlock_benign sA
      rcases hu : HPMUnlockACE sA with ⟨r2, sB⟩
      simp only [hu] at huk huo hut hub
      have hubk : benignDelta s.key Δu := by
        rw [hmk] at hub
        exact hub
      by_cases hr2 : r2 ≠ 0
      · simp only [if_pos hr2]
        refine ⟨by rw [huk, hmk], by rw [huo, hmo],
          [Event.read 0 0x3 r0 rep0] ++ Δu, ?_, ?_, by simp⟩
        · rw [hut, hmt, List.append_assoc]
        · exact benignDelta_append _ _ _ (benignDelta_read _ _ _ _ _) hubk
      · simp only [if_neg hr2]
        obtain ⟨hdk, hdo, Δd, hdt, hdb⟩ := doCommand_delta_events sB 0 kHPMCommandDBMA [1]
        rcases hd : HPMDoCommand sB 0 kHPMCommandDBMA [1] with ⟨⟨r3, o3⟩, sC⟩
        simp only [hd] at hdk hdo hdt hdb
        have hdbk : benignDelta s.key Δd :=
          benignDelta_of_docmd s.key [1] Δd (by decide) hdb
        by_cases hr3 : r3 ≠ 0
        · simp only [if_pos hr3]
          refine ⟨by rw [hdk, huk, hmk], by rw [hdo, huo, hmo],
            [Event.read 0 0x3 r0 rep0] ++ Δu ++ Δd, ?_, ?_, by simp⟩
          · rw [hdt, hut, hmt]
            simp [List.append_assoc]
          · exact benignDelta_append _ _ _
              (benignDelta_append _ _ _ (benignDelta_read _ _ _ _ _) hubk) hdbk
        · simp only [if_neg hr3]
          obtain ⟨hm2k, hm2o, r4', rep4, hm2t⟩ := getMode_delta sC
          have hdbma2 := getMode_dbma_read sC
          rcases hm2 : HPMGetMode sC with ⟨⟨r4, mode4⟩, sD⟩
          simp only [hm2] at hm2k hm2o hm2t hdbma2
          have hkeys : sD.key = s.key := by rw [hm2k, hdk, huk, hmk]
          have horas : sD.oracle = s.oracle := by rw [hm2o, hdo, huo, hmo]
          by_cases hr4 : r4 ≠ 0
          · simp only [if_pos hr4]
            refine ⟨hkeys, horas,
              [Event.read 0 0x3 r0 rep0] ++ Δu ++ Δd ++ [Event.read 0 0x3 r4' rep4],
              ?_, ?_, by simp⟩
            · rw [hm2t, hdt, hut, hmt]
              simp [List.append_assoc]
            · exact benignDelta_append _ _ _ (benignDelta_append _ _ _
                (benignDelta_append _ _ _ (benignDelta_read _ _ _ _ _) hubk) hdbk)
                (benignDelta_read _ _ _ _ _)
          · simp only [if_neg hr4]
            by_cases hm4 : mode4 = some HPMMode.dbma
            · have hmode : ¬ mode4 ≠ some HPMMode.dbma := by simp [hm4]
              simp only [if_neg hmode]
              obtain ⟨rep, htr', htag⟩ := hdbma2 (by simp [hm4])
              refine ⟨hkeys, horas,
                [Event.read 0 0x3 r0 rep0] ++ Δu ++ Δd ++ [Event.read 0 0x3 0 rep],
                ?_, ?_, ?_⟩
              · rw [htr', hdt, hut, hmt]
                simp [List.append_assoc]
              · exact benignDelta_append _ _ _ (benignDelta_append _ _ _
                  (benignDelta_append _ _ _ (benignDelta_read _ _ _ _ _) hubk) hdbk)
                  (benignDelta_read _ _ _ _ _)
              · intro _
                exact ⟨rep, by simp, htag⟩
            · have hmode : mode4 ≠ some HPMMode.dbma := hm4
              simp only [if_pos hmode]
              refine ⟨hkeys, horas,
                [Event.read 0 0x3 r0 rep0] ++ Δu ++ Δd ++ [Event.read 0 0x3 r4' rep4],
                ?_, ?_, by simp⟩
              · rw [hm2t, hdt, hut, hmt]
                simp [List.append_assoc]
              · exact benignDelta_append _ _ _ (benignDelta_append _ _ _
                  (benignDelta_append _ _ _ (benignDelta_read _ _ _ _ _) hubk) hdbk)
                  (benignDelta_read _ _ _ _ _)

theorem exit_delta (s : St) :
    ∃ w rest, (cli_exit_dbma_mode s).2.trace = s.trace ++ (Event.write 0 9 [0] w :: rest)
      ∧ (∀ e ∈ rest, isSendEvent e = false ∧ e ≠ Event.close) := by
  obtain ⟨hdk, hdo, hsh⟩ := hpmDoCommand_shape_args s 0 kHPMCommandDBMA [0] (by decide)
  rcases hd : HPMDoCommand s 0 kHPMCommandDBMA [0] with ⟨⟨r1, o1⟩, s1⟩
  simp only [hd] at hdk hdo hsh
  simp only [cli_exit_dbma_mode, hd]
  obtain ⟨hm2k, hm2o, r4', rep4, hm2t⟩ := getMode_delta s1
  have hbenign2 : ∀ e ∈ [Event.read 0 0x3 r4' rep4], isSendEvent e = false
      ∧ e ≠ Event.close := by
    intro e he
    rcases List.mem_singleton.mp he with rfl
    exact ⟨rfl, by simp⟩
  by_cases h1 : r1 ≠ 0
  · simp only [if_pos h1]
    rcases hsh with ⟨w, htr⟩ | ⟨w, c, htr⟩ | ⟨w, c, rr, rep, htr⟩
    · exact ⟨w, [], htr, by simp⟩
    · refine ⟨w, [Event.command 0 kHPMCommandDBMA c], htr, ?_⟩
      intro e he
      rcases List.mem_singleton.mp he with rfl
      exact ⟨rfl, by simp⟩
    · refine ⟨w, [Event.command 0 kHPMCommandDBMA c, Event.read 0 9 rr rep], htr, ?_⟩
      intro e he
      rcases List.mem_cons.mp he with rfl | he
      · exact ⟨rfl, by simp⟩
      · rcases List.mem_singleton.mp he with rfl
        exact ⟨rfl, by simp⟩
  · simp only [if_neg h1]
    rcases hm2 : HPMGetMode s1 with ⟨⟨r4, mode4⟩, sD⟩
    simp only [hm2] at hm2t
    have hres : (if r4 ≠ 0 then (false, sD)
        else if mode4 = some HPMMode.dbma then (false, sD) else (true, sD)).2 = sD :=
      snd_ite_shared3 _ _ _ _ _ _
    rw [hres]
    rcases hsh with ⟨w, htr⟩ | ⟨w, c, htr⟩ | ⟨w, c, rr, rep, htr⟩
    · refine ⟨w, [Event.read 0 0x3 r4' rep4], ?_, hbenign2⟩
      rw [hm2t, htr]
      simp
    · refine ⟨w, [Event.command 0 kHPMCommandDBMA c] ++ [Event.read 0 0x3 r4' rep4], ?_, ?_⟩
      · rw [hm2t, htr]
        simp
      · intro e he
        rcases List.mem_append.mp he with he | he
        · rcases List.mem_singleton.mp he with rfl
          exact ⟨rfl, by simp⟩
        · exact hbenign2 e he
    · refine ⟨w, [Event.command 0 kHPMCommandDBMA c, Event.read 0 9 rr rep]
        ++ [Event.read 0 0x3 r4' rep4], ?_, ?_⟩
      · rw [hm2t, htr]
        simp
      · intro e he
        rcases List.mem_append.mp he with he | he
        · rcases List.mem_cons.mp he with rfl | he
          · exact ⟨rfl, by simp⟩
          · rcases List.mem_singleton.mp he with rfl
            exact ⟨rfl, by simp⟩
        · exact hbenign2 e he

theorem dispatch_delta (cmd : Cmd) (tokens : List (List Char)) (s : St) (h : cmd ≠ Cmd.help) :
    (cli_dispatch cmd tokens s).2.key = s.key
  ∧ (cli_dispatch cmd tokens s).2.oracle = s.oracle
  ∧ ∃ body, (cli_dispatch cmd tokens s).2.trace
      = s.trace ++ [Event.sendVDM 0 3 body ((cli_dispatch cmd tokens s).1)] := by
  cases cmd with
  | help => exact absurd rfl h
  | reboot => exact ⟨rfl, rfl, _, rfl⟩
  | dfu => exact ⟨rfl, rfl, _, rfl⟩
  | debug => exact ⟨rfl, rfl, _, rfl⟩
  | custom => exact ⟨rfl, rfl, _, rfl⟩

set_option maxHeartbeats 2000000 in
theorem mainRun_cases (args : Args) (euid : Nat) (env : OpenEnv) (oracle : Oracle)
    (key : List Nat) (code : Nat) (tr : List Event)
    (hrun : mainRun args euid env oracle key = (code, tr)) :
    (code = 1 ∧ benignDelta key tr)
  ∨ (∃ A body r, tr = A ++ [Event.sendVDM 0 3 body r]
      ∧ code = 1 ∧ r ≠ 0
      ∧ benignDelta key A
      ∧ ∃ rep, Event.read 0 0x3 0 rep ∈ A ∧ rep.take 4 = dbmaTag)
  ∨ (∃ A body w rest, tr = A ++ Event.sendVDM 0 3 body 0 :: Event.write 0 9 [0] w :: rest
      ∧ benignDelta key A
      ∧ (∃ rep, Event.read 0 0x3 0 rep ∈ A ∧ rep.take 4 = dbmaTag)
      ∧ (∀ e ∈ rest, isSendEvent e = false)
      ∧ ((code = 1 ∧ Event.close ∉ rest)
         ∨ (code = 0 ∧ ∃ E, rest = E ++ [Event.close] ∧ ∀ e ∈ E, e ≠ Event.close))) := by
  unfold mainRun at hrun
  by_cases hhelp : args.cmd = Cmd.help
  · left
    rw [if_pos hhelp] at hrun
    rw [Prod.mk.injEq] at hrun
    obtain ⟨hc, ht⟩ := hrun
    subst hc
    subst ht
    exact ⟨rfl, by intro e he; exact absurd he (List.not_mem_nil e)⟩
  · rw [if_neg hhelp] at hrun
    by_cases heuid : euid ≠ 0
    · left
      rw [if_pos heuid] at hrun
      rw [Prod.mk.injEq] at hrun
      obtain ⟨hc, ht⟩ := hrun
      subst hc
      subst ht
      exact ⟨rfl, by intro e he; exact absurd he (List.not_mem_nil e)⟩
    · rw [if_neg heuid] at hrun
      rcases hopen : HPMClientOpen ⟨none, none⟩ args.rid env with ⟨oret, hcl⟩
      rw [hopen] at hrun
      dsimp only at hrun
      by_cases horet : oret ≠ 0
      · left
        rw [if_pos horet] at hrun
        rw [Prod.mk.injEq] at hrun
        obtain ⟨hc, ht⟩ := hrun
        subst hc
        subst ht
        exact ⟨rfl, by intro e he; exact absurd he (List.not_mem_nil e)⟩
      · rw [if_neg horet] at hrun
        obtain ⟨hck, hco, rC, repC, hct⟩ := getConnectionType_delta ⟨oracle, 0, key, []⟩
        rcases hconn : HPMGetConnectionType ⟨oracle, 0, key, []⟩ with ⟨ct, s1⟩
        simp only [hconn] at hrun hck hco hct
        have hs1tr : s1.trace = [Event.read 0 0x3f rC repC] := by
          rw [hct]
          rfl
        have hs1key : s1.key = key := hck
        have hbenign1 : benignDelta key s1.trace := by
          rw [hs1tr]
          exact benignDelta_read _ _ _ _ _
        by_cases hcterr : ct = -1
        · left
          rw [if_pos hcterr] at hrun
          rw [Prod.mk.injEq] at hrun
          obtain ⟨hc, ht⟩ := hrun
          subst hc
          subst ht
          exact ⟨rfl, hbenign1⟩
        · by_cases hctnone : ct = 0
          · left
            rw [if_neg hcterr, if_pos hctnone] at hrun
            rw [Prod.mk.injEq] at hrun
            obtain ⟨hc, ht⟩ := hrun
            subst hc
            subst ht
            exact ⟨rfl, hbenign1⟩
          · rw [if_neg hcterr, if_neg hctnone] at hrun
            obtain ⟨hek, heo, Δe, het, hbe, hconf⟩ := enter_delta s1
            rcases hent : cli_enter_dbma_mode s1 with ⟨entered, s2⟩
            simp only [hent] at hrun hek heo het hbe hconf
            have hbeKey : benignDelta key Δe := by
              rw [hs1key] at hbe
              exact hbe
            have hs2tr : s2.trace = s1.trace ++ Δe := het
            have hbenign2 : benignDelta key s2.trace := by
              rw [hs2tr]
              exact benignDelta_append _ _ _ hbenign1 hbeKey
            cases entered with
            | false =>
              left
              simp only [Bool.not_false, if_true] at hrun
              rw [Prod.mk.injEq] at hrun
              obtain ⟨hc, ht⟩ := hrun
              subst hc
              subst ht
              exact ⟨rfl, hbenign2⟩
            | true =>
              simp only [Bool.not_true, if_false] at hrun
              obtain ⟨repM, hrepM, htagM⟩ := hconf rfl
              have hconfA : ∃ rep, Event.read 0 0x3 0 rep ∈ s2.trace
                  ∧ rep.take 4 = dbmaTag := by
                refine ⟨repM, ?_, htagM⟩
                rw [hs2tr]
                exact List.mem_append.mpr (Or.inr hrepM)
              obtain ⟨hdk, hdo, bodyD, hdt⟩ := dispatch_delta args.cmd args.tokens s2 hhelp
              rcases hdisp : cli_dispatch args.cmd args.tokens s2 with ⟨rD, s3⟩
              simp only [hdisp] at hrun hdk hdo hdt
              have hs3tr : s3.trace = s2.trace ++ [Event.sendVDM 0 3 bodyD rD] := hdt
              by_cases hrD : rD ≠ 0
              · right
                left
                rw [if_pos hrD] at hrun
                rw [Prod.mk.injEq] at hrun
                obtain ⟨hc, ht⟩ := hrun
                subst hc
                subst ht
                exact ⟨s2.trace, bodyD, rD, hs3tr, rfl, hrD, hbenign2, hconfA⟩
              · right
                right
                rw [if_neg hrD] at hrun
                have hrD0 : rD = 0 := by omega
                subst hrD0
                obtain ⟨w, restE, hext, hbex⟩ := exit_delta s3
                rcases hexit : cli_exit_dbma_mode s3 with ⟨exited, s4⟩
                simp only [hexit] at hrun hext
                have hs4tr : s4.trace = s2.trace
                    ++ Event.sendVDM 0 3 bodyD 0 :: Event.write 0 9 [0] w :: restE := by
                  rw [hext, hs3tr]
                  simp
                cases exited with
                | false =>
                  simp only [Bool.not_false, if_true] at hrun
                  rw [Prod.mk.injEq] at hrun
                  obtain ⟨hc, ht⟩ := hrun
                  subst hc
                  subst ht
                  refine ⟨s2.trace, bodyD, w, restE, hs4tr, hbenign2, hconfA, ?_, ?_⟩
                  · intro e he
                    exact (hbex e he).1
                  · left
                    refine ⟨rfl, ?_⟩
                    intro hmem
                    exact (hbex _ hmem).2 rfl
                | true =>
                  simp only [Bool.not_true, if_false] at hrun
                  rw [Prod.mk.injEq] at hrun
                  obtain ⟨hc, ht⟩ := hrun
                  subst hc
                  subst ht
                  refine ⟨s2.trace, bodyD, w, restE ++ [Event.close], ?_, hbenign2, hconfA,
                    ?_, ?_⟩
                  · show (HPMClientClose s4).trace = _
                    show s4.trace ++ [Event.close] = _
                    rw [hs4tr]
                    simp
                  · intro e he
                    rcases List.mem_append.mp he with he | he
                    · exact (hbex e he).1
                    · rcases List.mem_singleton.mp he with rfl
                      rfl
                  · right
                    refine ⟨rfl, restE, rfl, ?_⟩
                    intro e he
                    exact (hbex e he).2

theorem send_position (A C : List Event) (x v : Event) (i : Nat)
    (hA : ∀ e ∈ A, isSendEvent e = false)
    (hC : ∀ e ∈ C, isSendEvent e = false)
    (hv : isSendEvent v = true)
    (h : (A ++ x :: C)[i]? = some v) : i = A.length ∧ v = x := by
  rcases Nat.lt_trichotomy i A.length with hlt | heq | hgt
  · exfalso
    rw [List.getElem?_append_left hlt] at h
    have hf := hA v (List.getElem?_mem h)
    rw [hf] at hv
    cases hv
  · refine ⟨heq, ?_⟩
    subst heq
    rw [List.getElem?_append_right (le_refl _)] at h
    simp only [Nat.sub_self, List.getElem?_cons_zero] at h
    exact (Option.some.inj h).symm
  · exfalso
    rw [List.getElem?_append_right (Nat.le_of_lt hgt)] at h
    have h1 : i - A.length = (i - A.length - 1) + 1 := by omega
    rw [h1] at h
    simp only [List.getElem?_cons_succ] at h
    have hf := hC v (List.getElem?_mem h)
    rw [hf] at hv
    cases hv

theorem mem_position_prefix (A rest : List Event) (x : Event) (hx : x ∈ A) :
    ∃ j, j < A.length ∧ (A ++ rest)[j]? = some x := by
  obtain ⟨n, hn⟩ := List.getElem?_of_mem hx
  have hlt : n < A.length := (List.getElem?_eq_some.mp hn).1
  exact ⟨n, hlt, by rw [List.getElem?_append_left hlt]; exact hn⟩

/-- The temporal discipline the session orchestrator provides: every VDM
transmission is preceded by a successful mode read decoding "DBMa"; after
any successful transmission a restore write (the DBMa command's false-byte
argument) occurs; whenever the handle is released a restore write occurs
earlier; and a failed transmission ends the process with exit code 1,
with no restore write and no handle release anywhere in the trace. -/
def sessionDisciplined (run : Nat × List Event) : Prop :=
  (∀ (i : Nat) (c a : Nat) (body : List Nat) (r : Int),
     run.2[i]? = some (Event.sendVDM c a body r) →
     ∃ (j : Nat) (rep : List Nat),
       j < i ∧ run.2[j]? = some (Event.read 0 0x3 0 rep) ∧ rep.take 4 = dbmaTag)
  ∧ (∀ (c a : Nat) (body : List Nat), Event.sendVDM c a body 0 ∈ run.2 →
      ∃ e, e ∈ run.2 ∧ isRestoreWrite e = true)
  ∧ (Event.close ∈ run.2 →
      ∃ (i j : Nat), i < j ∧ (∃ w, run.2[i]? = some (Event.write 0 9 [0] w))
        ∧ run.2[j]? = some Event.close)
  ∧ (∀ c a body r, Event.sendVDM c a body r ∈ run.2 → r ≠ 0 →
      run.1 = 1 ∧ (∀ e ∈ run.2, isRestoreWrite e = false) ∧ Event.close ∉ run.2)

/-- Claim C2 (amended): in every session no VDM transmission occurs before
a successful mode re-query confirming DBMa; the restore of Application
mode is attempted whenever the VDM send succeeds, and it precedes the
handle release; but when the VDM send fails the process exits with code 1
without attempting the restore and without releasing the handle. -/
theorem mainRun_session_discipline (args : Args) (euid : Nat) (env : OpenEnv)
    (oracle : Oracle) (key : List Nat) (hk : key ≠ [0]) :
    sessionDisciplined (mainRun args euid env oracle key) := by
  rcases hrun : mainRun args euid env oracle key with ⟨code, tr⟩
  rcases mainRun_cases args euid env oracle key code tr hrun with
    ⟨hc, hb⟩ | ⟨A, body, r, htr, hc, hr, hbA, rep, hrep, htag⟩ |
    ⟨A, body, w, rest, htr, hbA, ⟨rep, hrep, htag⟩, hnos, hcl⟩
  · refine ⟨?_, ?_, ?_, ?_⟩
    · intro i c a body r h
      have hmem := List.getElem?_mem h
      have hf := (hb _ hmem).1
      simp [isSendEvent] at hf
    · intro c a body h
      have hf := (hb _ h).1
      simp [isSendEvent] at hf
    · intro h
      exact absurd rfl ((hb _ h).2.1)
    · intro c a body r h _
      have hf := (hb _ h).1
      simp [isSendEvent] at hf
  · subst htr
    have hAs : ∀ e ∈ A, isSendEvent e = false := fun e he => (hbA e he).1
    refine ⟨?_, ?_, ?_, ?_⟩
    · intro i c a body' r' h
      obtain ⟨hi, _⟩ := send_position A [] (Event.sendVDM 0 3 body r)
        (Event.sendVDM c a body' r') i hAs (by intro e he; cases he) rfl h
      obtain ⟨j, hj, hget⟩ := mem_position_prefix A _ _ hrep
      exact ⟨j, rep, by omega, hget, htag⟩
    · intro c a body' hmem
      rcases List.mem_append.mp hmem with hA' | hx
      · have hf := (hbA _ hA').1
        simp [isSendEvent] at hf
      · rw [List.mem_singleton] at hx
        injection hx with h1 h2 h3 h4
        exact absurd h4.symm hr
    · intro h
      rcases List.mem_append.mp h with hA' | hx
      · exact absurd rfl ((hbA _ hA').2.1)
      · rw [List.mem_singleton] at hx
        cases hx
    · intro c a body' r' hmem hr'
      refine ⟨hc, ?_, ?_⟩
      · intro e he
        rcases List.mem_append.mp he with hA' | hx
        · cases hre : isRestoreWrite e
          · rfl
          · exact absurd ((hbA _ hA').2.2 hre) hk
        · rw [List.mem_singleton] at hx
          subst hx
          rfl
      · intro h
        rcases List.mem_append.mp h with hA' | hx
        · exact absurd rfl ((hbA _ hA').2.1)
        · rw [List.mem_singleton] at hx
          cases hx
  · subst htr
    have hAs : ∀ e ∈ A, isSendEvent e = false := fun e he => (hbA e he).1
    have hCs : ∀ e ∈ Event.write 0 9 [0] w :: rest, isSendEvent e = false := by
      intro e he
      rcases List.mem_cons.mp he with rfl | he
      · rfl
      · exact hnos e he
    refine ⟨?_, ?_, ?_, ?_⟩
    · intro i c a body' r' h
      obtain ⟨hi, _⟩ := send_position A _ (Event.sendVDM 0 3 body 0)
        (Event.sendVDM c a body' r') i hAs hCs rfl h
      obtain ⟨j, hj, hget⟩ := mem_position_prefix A _ _ hrep
      exact ⟨j, rep, by omega, hget, htag⟩
    · intro c a body' hmem
      refine ⟨Event.write 0 9 [0] w, ?_, by simp [isRestoreWrite]⟩
      exact List.mem_append.mpr (Or.inr (List.mem_cons.mpr (Or.inr
        (List.mem_cons.mpr (Or.inl rfl)))))
    · intro h
      rcases hcl with ⟨hc1, hnc⟩ | ⟨hc0, E, hrest, hEnc⟩
      · exfalso
        rcases List.mem_append.mp h with hA' | hx
        · exact absurd rfl ((hbA _ hA').2.1)
        · rcases List.mem_cons.mp hx with hx' | hx
          · cases hx'
          · rcases List.mem_cons.mp hx with hx' | hx
            · cases hx'
            · exact hnc hx
      · subst hrest
        refine ⟨A.length + 1,
          (A ++ Event.sendVDM 0 3 body 0 :: Event.write 0 9 [0] w :: E).length, ?_, ?_, ?_⟩
        · simp only [List.length_append, List.length_cons]
          omega
        · refine ⟨w, ?_⟩
          rw [List.getElem?_append_right (by omega)]
          have h1 : A.length + 1 - A.length = 1 := by omega
          rw [h1]
          simp only [List.getElem?_cons_succ, List.getElem?_cons_zero]
        · have hsplit : A ++ Event.sendVDM 0 3 body 0 :: Event.write 0 9 [0] w
              :: (E ++ [Event.close])
            = (A ++ Event.sendVDM 0 3 body 0 :: Event.write 0 9 [0] w :: E)
              ++ [Event.close] := by
            simp
          rw [hsplit]
          exact List.getElem?_concat_length _ _
    · intro c a body' r' hmem hr'
      exfalso
      rcases List.mem_append.mp hmem with hA' | hx
      · have hf := (hbA _ hA').1
        simp [isSendEvent] at hf
      · rcases List.mem_cons.mp hx with hx' | hx
        · injection hx' with h1 h2 h3 h4
          exact hr' h4
        · rcases List.mem_cons.mp hx with hx' | hx
          · cases hx'
          · have hf := hnos _ hx
            simp [isSendEvent] at hf

/-- Parsed arguments for the C2/C3 counterexample runs: `reboot` on RID 0. -/
def argsC2 : Args := ⟨Cmd.reboot, 0, []⟩

/-- Oracle for the C2 counterexample: everything succeeds except the VDM
send (call 2), the connection reads Source, mode queries reply "DBMa". -/
def oracleC2 : Oracle :=
  ⟨fun n => if n = 2 then kIOReturnError else 0,
   fun n => if n = 0 then [1] else [0x44, 0x42, 0x4d, 0x61]⟩

/-- Claim C2 as frozen fails on the code: in this session the VDM send
fails, and the process exits with code 1 without attempting to restore
Application mode (no DBMa false-byte write appears in the trace) and
without releasing the handle, so the restore is not attempted "regardless
of whether the VDM send succeeded or failed". -/
theorem mainRun_no_restore_on_send_failure :
    mainRun argsC2 0 envOpenOk oracleC2 [1, 2, 3, 4] =
      (1, [Event.read 0 0x3f 0 [1],
           Event.read 0 0x3 0 [0x44, 0x42, 0x4d, 0x61],
           Event.sendVDM 0 3 [0x12, 0x80, 0xac, 0x05, 0x05, 0x01, 0x00, 0x00,
             0x00, 0x00, 0x00, 0x80] kIOReturnError])
  ∧ (mainRun argsC2 0 envOpenOk oracleC2 [1, 2, 3, 4]).2.filter isRestoreWrite = []
  ∧ Event.close ∉ (mainRun argsC2 0 envOpenOk oracleC2 [1, 2, 3, 4]).2 := by
  decide

theorem mainRun_session_discipline_witness :
    ([9, 9, 9, 9] : List Nat) ≠ [0]
  ∧ sessionDisciplined (mainRun argsC1 0 envOpenOk oracleC1 [9, 9, 9, 9]) :=
  ⟨by decide, mainRun_session_discipline argsC1 0 envOpenOk oracleC1 [9, 9, 9, 9] (by decide)⟩

/-- Exit-code and handle-release discipline of the orchestrator: the
process exits 0 or 1; on exit 1 no close of the transport handle ever
happened; the close happens exactly on the successful exit-0 path. -/
def closeDiscipline (run : Nat × List Event) : Prop :=
  (run.1 = 0 ∨ run.1 = 1)
  ∧ (run.1 = 1 → Event.close ∉ run.2)
  ∧ (run.1 = 0 → Event.close ∈ run.2)

/-- Claim C3 (amended): on every fatal failure after a successful open the
process exits with code 1 but the transport handle is NOT explicitly
closed (fatalf prints and exits without HPMClientClose); the handle is
closed exactly on the fully successful exit-0 path. -/
theorem mainRun_close_only_on_success (args : Args) (euid : Nat) (env : OpenEnv)
    (oracle : Oracle) (key : List Nat)
    (_hopen : (HPMClientOpen ⟨none, none⟩ args.rid env).1 = 0) :
    closeDiscipline (mainRun args euid env oracle key) := by
  rcases hrun : mainRun args euid env oracle key with ⟨code, tr⟩
  rcases mainRun_cases args euid env oracle key code tr hrun with
    ⟨hc, hb⟩ | ⟨A, body, r, htr, hc, hr, hbA, rep, hrep, htag⟩ |
    ⟨A, body, w, rest, htr, hbA, hconf, hnos, hcl⟩
  · subst hc
    refine ⟨Or.inr rfl, fun _ => ?_, fun h => by simp at h⟩
    intro hmem
    exact (hb _ hmem).2.1 rfl
  · subst hc
    subst htr
    refine ⟨Or.inr rfl, fun _ => ?_, fun h => by simp at h⟩
    intro hmem
    rcases List.mem_append.mp hmem with hA' | hx
    · exact (hbA _ hA').2.1 rfl
    · rw [List.mem_singleton] at hx
      cases hx
  · subst htr
    rcases hcl with ⟨hc1, hnc⟩ | ⟨hc0, E, hrest, hEnc⟩
    · subst hc1
      refine ⟨Or.inr rfl, fun _ => ?_, fun h => by simp at h⟩
      intro hmem
      rcases List.mem_append.mp hmem with hA' | hx
      · exact (hbA _ hA').2.1 rfl
      · rcases List.mem_cons.mp hx with hx' | hx
        · cases hx'
        · rcases List.mem_cons.mp hx with hx' | hx
          · cases hx'
          · exact hnc hx
    · subst hc0
      subst hrest
      refine ⟨Or.inl rfl, fun h => by simp at h, fun _ => ?_⟩
      refine List.mem_append.mpr (Or.inr ?_)
      refine List.mem_cons.mpr (Or.inr ?_)
      refine List.mem_cons.mpr (Or.inr ?_)
      exact List.mem_append.mpr (Or.inr (List.mem_singleton.mpr rfl))

/-- Oracle for the C3 counterexample: the very first transport call (the
connection-type read) fails. -/
def oracleC3 : Oracle := ⟨fun _ => kIOReturnError, fun _ => []⟩

/-- Claim C3 as frozen fails on the code: with a successful open but a
failing connection-type query, the process exits with code 1 and the
transport handle is never explicitly closed before exit. -/
theorem mainRun_fatal_without_close :
    (HPMClientOpen ⟨none, none⟩ argsC2.rid envOpenOk).1 = 0
  ∧ mainRun argsC2 0 envOpenOk oracleC3 [1, 2, 3, 4]
      = (1, [Event.read 0 0x3f kIOReturnError []])
  ∧ Event.close ∉ (mainRun argsC2 0 envOpenOk oracleC3 [1, 2, 3, 4]).2 := by
  decide

theorem mainRun_close_only_on_success_witness :
    (HPMClientOpen ⟨none, none⟩ argsC2.rid envOpenOk).1 = 0
  ∧ closeDiscipline (mainRun argsC2 0 envOpenOk oracleC3 [1, 2, 3, 4]) :=
  ⟨by decide,
    mainRun_close_only_on_success argsC2 0 envOpenOk oracleC3 [1, 2, 3, 4] (by decide)⟩
